import Mathlib

/-!
Verification of the planetarium physics core (`src/bodydefs.py`,
`src/parse/builders.py`) against its design specification.

The body state model is embedded shallowly: a Python `deque(maxlen=3)` with
`appendleft` becomes a Lean `List` whose head is the deque's left end, so
Python's `states[-1]` is the list's last element and appending on the left
with eviction on the right is `(· :: ·)` followed by `List.take 3`.
Machine floats are modelled as real numbers.
-/

/-- Modelled from the spec: the 2-D vector primitive `Vector2` lives in
`utils.py`, which is not among the provided sources.  Per the spec it has two
floating-point components and supports addition, subtraction, scalar
multiplication, unary negation, Euclidean magnitude and exact equality. -/
@[ext]
structure Vector2 where
  x : ℝ
  y : ℝ

namespace Vector2

/-- Modelled from the spec: `utils.Vector2()` with no arguments is the zero
vector (used by `Body.__init__` and `Body.new_state` for the force
accumulator). -/
instance : Zero Vector2 := ⟨⟨0, 0⟩⟩

/-- Modelled from the spec: componentwise vector addition. -/
instance : Add Vector2 := ⟨fun a b => ⟨a.x + b.x, a.y + b.y⟩⟩

/-- Modelled from the spec: componentwise vector subtraction. -/
instance : Sub Vector2 := ⟨fun a b => ⟨a.x - b.x, a.y - b.y⟩⟩

/-- Modelled from the spec: unary negation. -/
instance : Neg Vector2 := ⟨fun a => ⟨-a.x, -a.y⟩⟩

/-- Modelled from the spec: scalar * vector multiplication. -/
instance : HMul ℝ Vector2 Vector2 := ⟨fun c a => ⟨c * a.x, c * a.y⟩⟩

/-- Modelled from the spec: vector * scalar multiplication. -/
instance : HMul Vector2 ℝ Vector2 := ⟨fun a c => ⟨a.x * c, a.y * c⟩⟩

/-- Modelled from the spec: `abs(v)` is the Euclidean norm
`sqrt (x^2 + y^2)` (magnitude of the zero vector is exactly 0). -/
noncomputable def abs (a : Vector2) : ℝ := Real.sqrt (a.x ^ 2 + a.y ^ 2)

@[simp] theorem zero_x : (0 : Vector2).x = 0 := rfl
@[simp] theorem zero_y : (0 : Vector2).y = 0 := rfl
@[simp] theorem add_x (a b : Vector2) : (a + b).x = a.x + b.x := rfl
@[simp] theorem add_y (a b : Vector2) : (a + b).y = a.y + b.y := rfl
@[simp] theorem sub_x (a b : Vector2) : (a - b).x = a.x - b.x := rfl
@[simp] theorem sub_y (a b : Vector2) : (a - b).y = a.y - b.y := rfl
@[simp] theorem neg_x (a : Vector2) : (-a).x = -a.x := rfl
@[simp] theorem neg_y (a : Vector2) : (-a).y = -a.y := rfl
@[simp] theorem smul_x (c : ℝ) (a : Vector2) : (c * a).x = c * a.x := rfl
@[simp] theorem smul_y (c : ℝ) (a : Vector2) : (c * a).y = c * a.y := rfl
@[simp] theorem muls_x (a : Vector2) (c : ℝ) : (a * c).x = a.x * c := rfl
@[simp] theorem muls_y (a : Vector2) (c : ℝ) : (a * c).y = a.y * c := rfl

theorem neg_sub_eq (a b : Vector2) : a - b = -(b - a) := by
  ext <;> simp

theorem abs_neg (a : Vector2) : abs (-a) = abs a := by
  unfold abs
  simp

end Vector2

/-- Embeds `Body.State` (`bodydefs.py`, lines 36-41): one frame of a body's
history, holding position, velocity and the force accumulator. -/
structure State where
  pos : Vector2
  vel : Vector2
  forces : Vector2

/-- Embeds the `Body` class state (`bodydefs.py`, lines 43-50): a name, a
mass with its precomputed inverse, and the `deque(maxlen=3)` of state
frames.  The list's head is the deque's left end, so Python's `states[-1]`
is `states.getLast`.  The deque is never empty after `__init__`
(which pushes one frame), recorded by `states_ne`. -/
structure Body where
  name : String
  mass : ℝ
  inv_mass : ℝ
  states : List State
  states_ne : states ≠ []

namespace Body

/-- Embeds `Body.__init__` (`bodydefs.py`, lines 43-50): stores the name,
pushes a single frame `(pos, vel, 0)` onto the empty deque, and precomputes
`inv_mass = 1 / mass`. -/
noncomputable def mkBody (name : String) (pos vel : Vector2) (mass : ℝ) : Body where
  name := name
  mass := mass
  inv_mass := 1 / mass
  states := [⟨pos, vel, 0⟩]
  states_ne := by simp

/-- Embeds the `pos` property (`bodydefs.py`, lines 52-54): reads
`states[-1].pos`, i.e. the last element of the list. -/
def pos (b : Body) : Vector2 := (b.states.getLast b.states_ne).pos

/-- Embeds the `vel` property (`bodydefs.py`, lines 65-67). -/
def vel (b : Body) : Vector2 := (b.states.getLast b.states_ne).vel

/-- Embeds the `forces` property (`bodydefs.py`, lines 78-80). -/
def forces (b : Body) : Vector2 := (b.states.getLast b.states_ne).forces

/-- Assignment through the `pos`/`vel`/`forces` setters mutates the frame at
`states[-1]` in place; functionally this is replacing the last list element. -/
def setCurrent (b : Body) (f : State → State) : Body where
  name := b.name
  mass := b.mass
  inv_mass := b.inv_mass
  states := b.states.dropLast ++ [f (b.states.getLast b.states_ne)]
  states_ne := by simp

/-- Embeds `Body.new_state` (`bodydefs.py`, lines 91-92):
`states.appendleft(State(self.pos, self.vel, Vector2()))` on a
`deque(maxlen=3)`: cons the frame on the left, then keep only the 3 leftmost
elements (the deque discards from the right end). -/
def new_state (b : Body) : Body where
  name := b.name
  mass := b.mass
  inv_mass := b.inv_mass
  states := (State.mk b.pos b.vel 0 :: b.states).take 3
  states_ne := by simp

/-- Embeds `Body.apply_gravity_of` (`bodydefs.py`, lines 94-98):
`r = body.pos - self.pos`, `r3 = abs(r) ** 3`,
`self.forces += -(self.mass * body.mass / r3) * r`. -/
noncomputable def apply_gravity_of (b other : Body) : Body :=
  let r := other.pos - b.pos
  let r3 := (Vector2.abs r) ^ 3
  b.setCurrent fun s => { s with forces := s.forces + (-(b.mass * other.mass / r3)) * r }

/-- Embeds `Body.integrate` (`bodydefs.py`, lines 100-101):
`self.vel, self.pos = method(self, dt)` — the right-hand side is evaluated
on the pre-update body, then the current frame's `vel` and `pos` are
replaced by the pair's components. -/
def integrate (b : Body) (dt : ℝ) (method : Body → ℝ → Vector2 × Vector2) : Body :=
  let vp := method b dt
  b.setCurrent fun s => { s with vel := vp.1, pos := vp.2 }

end Body

/-- Modelled from the spec: the integration methods live in `methods.py`,
which is not among the provided sources.  The explicit Euler method returns
`(current.vel + (current.forces * body.inv_mass) * dt,
  current.pos + current.vel * dt)`, the position update using the pre-update
velocity. -/
def euler (b : Body) (dt : ℝ) : Vector2 × Vector2 :=
  (b.vel + (b.forces * b.inv_mass) * dt, b.pos + b.vel * dt)

namespace Body

@[simp] theorem name_setCurrent (b : Body) (f : State → State) :
    (b.setCurrent f).name = b.name := rfl

@[simp] theorem mass_setCurrent (b : Body) (f : State → State) :
    (b.setCurrent f).mass = b.mass := rfl

@[simp] theorem inv_mass_setCurrent (b : Body) (f : State → State) :
    (b.setCurrent f).inv_mass = b.inv_mass := rfl

@[simp] theorem dropLast_setCurrent (b : Body) (f : State → State) :
    (b.setCurrent f).states.dropLast = b.states.dropLast :=
  List.dropLast_concat ..

@[simp] theorem length_setCurrent (b : Body) (f : State → State) :
    (b.setCurrent f).states.length = b.states.length := by
  conv_rhs => rw [← List.dropLast_append_getLast b.states_ne]
  simp [setCurrent]

@[simp] theorem current_setCurrent (b : Body) (f : State → State)
    (h : (b.setCurrent f).states ≠ []) :
    (b.setCurrent f).states.getLast h = f (b.states.getLast b.states_ne) :=
  List.getLast_append _

@[simp] theorem pos_setCurrent (b : Body) (f : State → State) :
    (b.setCurrent f).pos = (f (b.states.getLast b.states_ne)).pos := by
  unfold pos
  rw [current_setCurrent]

@[simp] theorem vel_setCurrent (b : Body) (f : State → State) :
    (b.setCurrent f).vel = (f (b.states.getLast b.states_ne)).vel := by
  unfold vel
  rw [current_setCurrent]

@[simp] theorem forces_setCurrent (b : Body) (f : State → State) :
    (b.setCurrent f).forces = (f (b.states.getLast b.states_ne)).forces := by
  unfold forces
  rw [current_setCurrent]

theorem pos_eq_current (b : Body) : b.pos = (b.states.getLast b.states_ne).pos := rfl

theorem vel_eq_current (b : Body) : b.vel = (b.states.getLast b.states_ne).vel := rfl

theorem forces_eq_current (b : Body) : b.forces = (b.states.getLast b.states_ne).forces := rfl

end Body

/-- Sample body used by witness statements: `Body("A", (0,0), (0,0), 1)`. -/
noncomputable def bodyA : Body := Body.mkBody "A" ⟨0, 0⟩ ⟨0, 0⟩ 1

/-- Sample body used by witness statements: `Body("B", (1,0), (0,0), 1)`. -/
noncomputable def bodyB : Body := Body.mkBody "B" ⟨1, 0⟩ ⟨0, 0⟩ 1

theorem bodyB_pos_ne_bodyA_pos : bodyB.pos ≠ bodyA.pos := by
  simp [bodyA, bodyB, Body.mkBody, Body.pos, Vector2.ext_iff]

/-- C1: integrating a body with the explicit Euler method sets the current
velocity to `vel + (forces * inv_mass) * dt` and the current position to
`pos + vel * dt`, where the position update uses the pre-update velocity. -/
theorem euler_integrate_updates (b : Body) (dt : ℝ) :
    (b.integrate dt euler).vel = b.vel + (b.forces * b.inv_mass) * dt ∧
    (b.integrate dt euler).pos = b.pos + b.vel * dt := by
  constructor <;> simp [Body.integrate, euler, Body.pos, Body.vel, Body.forces]

/-- C2: `apply_gravity_of(other)` adds exactly
`-(self.mass * other.mass / |r|^3) * r` with `r = other.pos - self.pos` to
the current-frame force accumulator, and changes nothing else about `self`:
name, mass, inverse mass, current position and velocity, and all prior
frames are untouched. -/
theorem apply_gravity_of_adds_newton_force (b other : Body) (_h : other.pos ≠ b.pos) :
    (b.apply_gravity_of other).forces
      = b.forces
        + (-(b.mass * other.mass / (Vector2.abs (other.pos - b.pos)) ^ 3))
          * (other.pos - b.pos)
  ∧ (b.apply_gravity_of other).pos = b.pos
  ∧ (b.apply_gravity_of other).vel = b.vel
  ∧ (b.apply_gravity_of other).name = b.name
  ∧ (b.apply_gravity_of other).mass = b.mass
  ∧ (b.apply_gravity_of other).inv_mass = b.inv_mass
  ∧ (b.apply_gravity_of other).states.dropLast = b.states.dropLast
  ∧ (b.apply_gravity_of other).states.length = b.states.length := by
  refine ⟨?_, ?_, ?_, rfl, rfl, rfl, ?_, ?_⟩ <;>
    simp [Body.apply_gravity_of, Body.pos, Body.vel, Body.forces]

/-- C2 witness: the theorem applied to the two sample bodies, whose current
positions differ. -/
theorem apply_gravity_of_adds_newton_force_witness :
    bodyB.pos ≠ bodyA.pos ∧
    ((bodyA.apply_gravity_of bodyB).forces
      = bodyA.forces
        + (-(bodyA.mass * bodyB.mass / (Vector2.abs (bodyB.pos - bodyA.pos)) ^ 3))
          * (bodyB.pos - bodyA.pos)
    ∧ (bodyA.apply_gravity_of bodyB).pos = bodyA.pos
    ∧ (bodyA.apply_gravity_of bodyB).vel = bodyA.vel
    ∧ (bodyA.apply_gravity_of bodyB).name = bodyA.name
    ∧ (bodyA.apply_gravity_of bodyB).mass = bodyA.mass
    ∧ (bodyA.apply_gravity_of bodyB).inv_mass = bodyA.inv_mass
    ∧ (bodyA.apply_gravity_of bodyB).states.dropLast = bodyA.states.dropLast
    ∧ (bodyA.apply_gravity_of bodyB).states.length = bodyA.states.length) :=
  ⟨bodyB_pos_ne_bodyA_pos,
   apply_gravity_of_adds_newton_force bodyA bodyB bodyB_pos_ne_bodyA_pos⟩

/-- C3: for two bodies at distinct current positions, the force contribution
`apply_gravity_of` adds to A from B is the exact negation of the
contribution it adds to B from A. -/
theorem apply_gravity_of_antisymmetric (a b : Body) (_h : a.pos ≠ b.pos) :
    (a.apply_gravity_of b).forces - a.forces
      = -((b.apply_gravity_of a).forces - b.forces) := by
  have habs : Vector2.abs (a.pos - b.pos) = Vector2.abs (b.pos - a.pos) := by
    rw [Vector2.neg_sub_eq a.pos b.pos, Vector2.abs_neg]
  simp only [Body.apply_gravity_of, Body.forces_setCurrent, Body.current_setCurrent,
    Body.forces]
  rw [habs]
  ext <;> simp <;> ring

/-- C3 witness: the theorem applied to the two sample bodies. -/
theorem apply_gravity_of_antisymmetric_witness :
    bodyA.pos ≠ bodyB.pos ∧
    ((bodyA.apply_gravity_of bodyB).forces - bodyA.forces
      = -((bodyB.apply_gravity_of bodyA).forces - bodyB.forces)) :=
  ⟨fun hc => bodyB_pos_ne_bodyA_pos hc.symm,
   apply_gravity_of_antisymmetric bodyA bodyB (fun hc => bodyB_pos_ne_bodyA_pos hc.symm)⟩

/-- C6: `integrate(dt, method)` replaces only the current frame's velocity
and position with the pair returned by the method (evaluated on the
pre-update body); the current frame's forces, all prior frames, and the
body's name, mass and inverse mass are unchanged. -/
theorem integrate_replaces_current_kinematics (b : Body) (dt : ℝ)
    (method : Body → ℝ → Vector2 × Vector2) :
    (b.integrate dt method).vel = (method b dt).1
  ∧ (b.integrate dt method).pos = (method b dt).2
  ∧ (b.integrate dt method).forces = b.forces
  ∧ (b.integrate dt method).states.dropLast = b.states.dropLast
  ∧ (b.integrate dt method).states.length = b.states.length
  ∧ (b.integrate dt method).name = b.name
  ∧ (b.integrate dt method).mass = b.mass
  ∧ (b.integrate dt method).inv_mass = b.inv_mass := by
  refine ⟨?_, ?_, ?_, ?_, ?_, rfl, rfl, rfl⟩ <;>
    simp [Body.integrate, Body.pos, Body.vel, Body.forces]

/-- One mutating operation of the `Body` lifecycle after construction:
`new_state()`, `apply_gravity_of(other)`, or `integrate(dt, method)`. -/
inductive Op where
  | step : Op
  | gravity : Body → Op
  | integ : ℝ → (Body → ℝ → Vector2 × Vector2) → Op

/-- Applies one lifecycle operation to a body. -/
noncomputable def applyOp (b : Body) : Op → Body
  | .step => b.new_state
  | .gravity other => b.apply_gravity_of other
  | .integ dt method => b.integrate dt method

/-- Runs a sequence of lifecycle operations, oldest first. -/
noncomputable def runOps (b : Body) (ops : List Op) : Body := ops.foldl applyOp b

theorem length_new_state (b : Body) :
    b.new_state.states.length = min 3 (b.states.length + 1) := by
  simp [Body.new_state]
  omega

theorem new_state_evicts (b : Body) (h3 : b.states.length = 3) :
    (b.new_state).states = State.mk b.pos b.vel 0 :: b.states.dropLast := by
  simp [Body.new_state, List.dropLast_eq_take, h3]

theorem runOps_length_le (b : Body) (hb : b.states.length ≤ 3) (ops : List Op) :
    (runOps b ops).states.length ≤ 3 := by
  induction ops generalizing b with
  | nil => exact hb
  | cons op rest ih =>
    show (runOps (applyOp b op) rest).states.length ≤ 3
    refine ih _ ?_
    cases op with
    | step =>
      have := length_new_state b
      simp only [applyOp]
      omega
    | gravity other => simpa [applyOp, Body.apply_gravity_of] using hb
    | integ dt method => simpa [applyOp, Body.integrate] using hb

/-- C5: starting from a constructed body, any sequence of `new_state`,
`apply_gravity_of` and `integrate` calls keeps the history length between 1
and 3; when the history is full (3 frames), a further `new_state` retains
only the fresh frame and the first two old frames — the last (oldest-pushed)
frame is dropped from the history and is no longer reachable from the body. -/
theorem history_bounded_and_evicting (name : String) (p v : Vector2) (m : ℝ)
    (ops : List Op) :
    1 ≤ (runOps (Body.mkBody name p v m) ops).states.length
  ∧ (runOps (Body.mkBody name p v m) ops).states.length ≤ 3
  ∧ ((runOps (Body.mkBody name p v m) ops).states.length = 3 →
      ((runOps (Body.mkBody name p v m) ops).new_state).states
        = State.mk (runOps (Body.mkBody name p v m) ops).pos
            (runOps (Body.mkBody name p v m) ops).vel 0
          :: (runOps (Body.mkBody name p v m) ops).states.dropLast) := by
  refine ⟨?_, ?_, fun h3 => new_state_evicts _ h3⟩
  · exact List.length_pos.mpr (runOps (Body.mkBody name p v m) ops).states_ne
  · exact runOps_length_le _ (by simp [Body.mkBody]) ops

/-- C5 witness: after two `new_state` calls the history of a fresh body
holds exactly 3 frames, and the theorem applies there. -/
theorem history_bounded_and_evicting_witness :
    (runOps (Body.mkBody "W" 0 0 1) [Op.step, Op.step]).states.length = 3
  ∧ ((runOps (Body.mkBody "W" 0 0 1) [Op.step, Op.step]).new_state).states
      = State.mk (runOps (Body.mkBody "W" 0 0 1) [Op.step, Op.step]).pos
          (runOps (Body.mkBody "W" 0 0 1) [Op.step, Op.step]).vel 0
        :: (runOps (Body.mkBody "W" 0 0 1) [Op.step, Op.step]).states.dropLast := by
  have h3 : (runOps (Body.mkBody "W" 0 0 1) [Op.step, Op.step]).states.length = 3 := by
    simp [runOps, applyOp, Body.new_state, Body.mkBody]
  exact ⟨h3, (history_bounded_and_evicting "W" 0 0 1 [Op.step, Op.step]).2.2 h3⟩

theorem getLast_congr {α : Type} {l₁ l₂ : List α} (h₁ : l₁ ≠ []) (h₂ : l₂ ≠ [])
    (e : l₁ = l₂) : l₁.getLast h₁ = l₂.getLast h₂ := by
  subst e
  rfl

/-- With at most two retained frames, `new_state` leaves the force
accumulator read through the `forces` property unchanged: the fresh
zero-force frame goes to the deque's left end while the property reads the
right end. -/
theorem forces_new_state_small (b : Body) (h : b.states.length ≤ 2) :
    b.new_state.forces = b.forces := by
  unfold Body.new_state Body.forces
  simp only
  have e : (State.mk b.pos b.vel 0 :: b.states).take 3
      = State.mk b.pos b.vel 0 :: b.states :=
    List.take_of_length_le (by simp; omega)
  exact congrArg State.forces
    ((getLast_congr _ (by simp) e).trans (List.getLast_cons b.states_ne))

/-- C4: evaluation at the failing input.  `Body("A",(0,0),(0,0),1)` accrues
the force `(-1,0)` from `Body("B",(1,0),(0,0),1)`; after `new_state()` the
`forces` property still reads `(-1,0)`, not the zero vector the claim
requires: `appendleft` puts the fresh zero-force frame at the deque's left
end, but the `pos`/`vel`/`forces` properties read `states[-1]`, the right
end, so the frame the accessors treat as current is not the pushed one. -/
theorem new_state_leaves_forces_unreset :
    (bodyA.apply_gravity_of bodyB).forces = Vector2.mk (-1) 0
  ∧ ((bodyA.apply_gravity_of bodyB).new_state).forces = Vector2.mk (-1) 0
  ∧ Vector2.mk (-1 : ℝ) 0 ≠ (0 : Vector2) := by
  have hr : bodyB.pos - bodyA.pos = Vector2.mk 1 0 := by
    simp [bodyA, bodyB, Body.mkBody, Body.pos, Vector2.ext_iff]
  have habs1 : Vector2.abs (Vector2.mk 1 0) = 1 := by
    simp [Vector2.abs]
  have hforces : (bodyA.apply_gravity_of bodyB).forces = Vector2.mk (-1) 0 := by
    simp only [Body.apply_gravity_of, Body.forces_setCurrent]
    rw [hr, habs1]
    simp [bodyA, bodyB, Body.mkBody, Body.forces, Vector2.ext_iff]
  refine ⟨hforces, ?_, by norm_num [Vector2.ext_iff]⟩
  rw [forces_new_state_small _ (by simp [Body.apply_gravity_of, bodyA, Body.mkBody]),
    hforces]

/-- An arbitrary Python object as seen by `Body.__eq__`: each of the four
attributes the comparison reads may be present or absent; reading an absent
attribute raises `AttributeError`. -/
structure PyObj where
  name : Option String
  mass : Option ℝ
  pos : Option Vector2
  vel : Option Vector2

/-- A `Body` viewed as a Python object: all four attributes are present. -/
def Body.toObj (b : Body) : PyObj :=
  ⟨some b.name, some b.mass, some b.pos, some b.vel⟩

open Classical in
/-- Embeds the `try` block of `Body.__eq__` (`bodydefs.py`, lines 103-115):
the four comparisons in source order, short-circuiting to `False` on the
first mismatch; accessing a missing attribute of `other` raises
`AttributeError`, modelled as `Except.error`. -/
noncomputable def Body.tryEq (self : Body) (o : PyObj) : Except Unit Bool :=
  match o.name with
  | none => .error ()
  | some n =>
    if self.name ≠ n then .ok false
    else match o.mass with
      | none => .error ()
      | some m =>
        if self.mass ≠ m then .ok false
        else match o.pos with
          | none => .error ()
          | some p =>
            if self.pos ≠ p then .ok false
            else match o.vel with
              | none => .error ()
              | some v =>
                if self.vel ≠ v then .ok false
                else .ok true

/-- Embeds `Body.__eq__` (`bodydefs.py`, lines 103-115) including the
`except AttributeError: return False` handler. -/
noncomputable def Body.pyEq (self : Body) (o : PyObj) : Bool :=
  match self.tryEq o with
  | .ok v => v
  | .error _ => false

/-- C8: two bodies compare equal exactly when their names, masses, and
current-frame positions and velocities all agree; the right-hand side
mentions nothing else, so history depth, prior frames and the force
accumulator cannot affect the comparison. -/
theorem eq_compares_name_mass_pos_vel (a b : Body) :
    a.pyEq b.toObj = true ↔
      (a.name = b.name ∧ a.mass = b.mass ∧ a.pos = b.pos ∧ a.vel = b.vel) := by
  unfold Body.pyEq Body.tryEq Body.toObj
  by_cases h1 : a.name = b.name <;>
    by_cases h2 : a.mass = b.mass <;>
      by_cases h3 : a.pos = b.pos <;>
        by_cases h4 : a.vel = b.vel <;>
          simp [h1, h2, h3, h4]

/-- C10: comparing a body with any object lacking one of the attributes
`name`, `mass`, `pos`, `vel` yields `False` instead of raising: the
`AttributeError` is caught inside `__eq__`. -/
theorem eq_with_missing_attribute_is_false (b : Body) (o : PyObj)
    (h : o.name = none ∨ o.mass = none ∨ o.pos = none ∨ o.vel = none) :
    b.pyEq o = false := by
  unfold Body.pyEq Body.tryEq
  rcases o with ⟨na, ma, pa, va⟩
  simp only at h
  cases na <;> cases ma <;> cases pa <;> cases va <;>
    simp_all <;> split_ifs <;> simp_all

/-- C10 witness: the theorem applied to a sample body and the empty object. -/
theorem eq_with_missing_attribute_is_false_witness :
    ((PyObj.mk none none none none).name = none
      ∨ (PyObj.mk none none none none).mass = none
      ∨ (PyObj.mk none none none none).pos = none
      ∨ (PyObj.mk none none none none).vel = none)
  ∧ bodyA.pyEq (PyObj.mk none none none none) = false :=
  ⟨Or.inl rfl, eq_with_missing_attribute_is_false bodyA _ (Or.inl rfl)⟩

/-- Embeds the `Builder` context manager (`parse/builders.py`, lines 5-55):
its state is the `args` dict mapping argument names to `None` or an
assigned value, in insertion order. -/
structure Builder (α : Type) where
  args : List (String × Option α)

/-- Embeds `Builder.__init__(*args)`: every declared argument starts
unassigned (`{arg: None for arg in args}`). -/
def Builder.ofArgs {α : Type} (names : List String) : Builder α :=
  ⟨names.map fun n => (n, none)⟩

/-- Python dict assignment `d[k] = v`: update the entry in place if the key
exists, else append it. -/
def dictSet {α : Type} : List (String × Option α) → String → α → List (String × Option α)
  | [], k, v => [(k, some v)]
  | (k', v') :: rest, k, v =>
    if k' = k then (k, some v) :: rest else (k', v') :: dictSet rest k v

/-- Embeds `Builder.gather` (`parse/builders.py`, lines 42-43):
`self.args[arg_name] = value`. -/
def Builder.gather {α : Type} (b : Builder α) (k : String) (v : α) : Builder α :=
  ⟨dictSet b.args k v⟩

/-- Embeds the `missing_args` property (`parse/builders.py`, lines 53-55):
the names whose value is still `None`, in dict order. -/
def Builder.missing_args {α : Type} (b : Builder α) : List String :=
  (b.args.filter fun p => p.2.isNone).map Prod.fst

/-- Embeds `Builder.__exit__` (`parse/builders.py`, lines 45-48): if any
argument value is `None`, raise `ValueError(self._make_missing_message())`,
else return normally.  The message maker is passed explicitly to model the
`_make_missing_message` override of each subclass. -/
def Builder.exit {α : Type} (b : Builder α) (makeMsg : Builder α → String) :
    Except String Unit :=
  if b.args.any fun p => p.2.isNone then .error (makeMsg b) else .ok ()

/-- Embeds the base `Builder._make_missing_message`
(`parse/builders.py`, lines 50-51): returns the empty string. -/
def Builder.make_missing_message {α : Type} (_ : Builder α) : String := ""

/-- Python `' '.join(items)`. -/
def joinSpace : List String → String
  | [] => ""
  | [s] => s
  | s :: s' :: rest => s ++ " " ++ joinSpace (s' :: rest)

/-- Embeds `BodyBuilder._make_missing_message`
(`parse/builders.py`, lines 91-94). -/
def BodyBuilder.make_missing_message {α : Type} (b : Builder α) : String :=
  "Following arguments are missing to create Body: " ++ joinSpace b.missing_args

/-- Embeds `SystemBuilder._make_missing_message`
(`parse/builders.py`, lines 119-122). -/
def SystemBuilder.make_missing_message {α : Type} (b : Builder α) : String :=
  "Following arguments are missing to create System: " ++ joinSpace b.missing_args

/-- The declared arguments of `BodyBuilder.__init__`
(`parse/builders.py`, line 78). -/
def BodyBuilder.declared : List String := ["name", "pos", "vel", "mass"]

/-- The declared arguments of `SystemBuilder.__init__`
(`parse/builders.py`, line 111). -/
def SystemBuilder.declared : List String := ["dt", "method"]

/-- `msg` names `arg`: the characters of `arg` occur contiguously in `msg`. -/
def mentions (msg arg : String) : Prop :=
  ∃ s t, msg.data = s ++ arg.data ++ t

theorem mentions_of_mem_joinSpace {l : List String} {a : String} (h : a ∈ l) :
    mentions (joinSpace l) a := by
  induction l with
  | nil => cases h
  | cons s rest ih =>
    rcases List.mem_cons.mp h with rfl | hm
    · cases rest with
      | nil => exact ⟨[], [], by simp [joinSpace]⟩
      | cons s' r' =>
        exact ⟨[], (" " ++ joinSpace (s' :: r')).data,
          by simp [joinSpace, String.data_append]⟩
    · cases rest with
      | nil => cases hm
      | cons s' r' =>
        obtain ⟨u, t, hu⟩ := ih hm
        exact ⟨(s ++ " ").data ++ u, t,
          by simp [joinSpace, String.data_append, hu]⟩

theorem mentions_append_left (p m a : String) (h : mentions m a) :
    mentions (p ++ m) a := by
  obtain ⟨u, t, hu⟩ := h
  exact ⟨p.data ++ u, t, by simp [String.data_append, hu]⟩

theorem missing_args_ne_nil_iff {α : Type} (b : Builder α) :
    b.missing_args ≠ [] ↔ (b.args.any fun p => p.2.isNone) = true := by
  simp [Builder.missing_args, List.any_eq_true]

/-- C9 counterexample: a base `Builder` declared with one argument `dt`,
never assigned.  `__exit__` raises `ValueError` as required, but its message
is the base `_make_missing_message` result — the empty string — which does
not name the missing argument `dt`. -/
theorem base_builder_message_names_nothing :
    (Builder.ofArgs ["dt"] : Builder Unit).exit Builder.make_missing_message
        = Except.error ""
  ∧ (Builder.ofArgs ["dt"] : Builder Unit).missing_args = ["dt"]
  ∧ ¬ mentions "" "dt" := by
  refine ⟨rfl, rfl, ?_⟩
  rintro ⟨s, t, h⟩
  rw [show ("" : String).data = [] from rfl,
    show ("dt" : String).data = ['d', 't'] from rfl] at h
  simp at h

/-- C9 (amended): for every builder scope, finalization succeeds exactly
when no declared argument is unassigned; when some are missing, the base
`Builder` raises `ValueError` with the empty message, while `BodyBuilder`
and `SystemBuilder` raise `ValueError` with a message that names every
missing argument. -/
theorem builder_exit_missing_check {α : Type} (b : Builder α) :
    (b.missing_args = [] →
        b.exit Builder.make_missing_message = Except.ok ()
      ∧ b.exit BodyBuilder.make_missing_message = Except.ok ()
      ∧ b.exit SystemBuilder.make_missing_message = Except.ok ())
  ∧ (b.missing_args ≠ [] →
        b.exit Builder.make_missing_message = Except.error ""
      ∧ (∃ m, b.exit BodyBuilder.make_missing_message = Except.error m
          ∧ ∀ a ∈ b.missing_args, mentions m a)
      ∧ (∃ m, b.exit SystemBuilder.make_missing_message = Except.error m
          ∧ ∀ a ∈ b.missing_args, mentions m a)) := by
  constructor
  · intro h0
    have hany : (b.args.any fun p => p.2.isNone) = false := by
      by_contra hc
      exact ((missing_args_ne_nil_iff b).mpr (by simpa using hc)) h0
    refine ⟨?_, ?_, ?_⟩ <;> simp [Builder.exit, hany]
  · intro hne
    have hany : (b.args.any fun p => p.2.isNone) = true :=
      (missing_args_ne_nil_iff b).mp hne
    refine ⟨by simp [Builder.exit, hany, Builder.make_missing_message],
      ⟨BodyBuilder.make_missing_message b, by simp [Builder.exit, hany], ?_⟩,
      ⟨SystemBuilder.make_missing_message b, by simp [Builder.exit, hany], ?_⟩⟩
    · intro a ha
      exact mentions_append_left _ _ _ (mentions_of_mem_joinSpace ha)
    · intro a ha
      exact mentions_append_left _ _ _ (mentions_of_mem_joinSpace ha)

/-- C9 witness: a `BodyBuilder`-shaped scope with all four declared
arguments unassigned satisfies the missing branch, and a fully gathered
`SystemBuilder`-shaped scope satisfies the complete branch. -/
theorem builder_exit_missing_check_witness :
    ((Builder.ofArgs BodyBuilder.declared : Builder Unit).missing_args ≠ []
  ∧ ((Builder.ofArgs BodyBuilder.declared : Builder Unit).exit
        Builder.make_missing_message = Except.error ""
    ∧ (∃ m, (Builder.ofArgs BodyBuilder.declared : Builder Unit).exit
          BodyBuilder.make_missing_message = Except.error m
        ∧ ∀ a ∈ (Builder.ofArgs BodyBuilder.declared : Builder Unit).missing_args,
            mentions m a)
    ∧ (∃ m, (Builder.ofArgs BodyBuilder.declared : Builder Unit).exit
          SystemBuilder.make_missing_message = Except.error m
        ∧ ∀ a ∈ (Builder.ofArgs BodyBuilder.declared : Builder Unit).missing_args,
            mentions m a)))
  ∧ (((Builder.ofArgs SystemBuilder.declared : Builder Unit).gather "dt" ()).gather
        "method" ()).missing_args = []
  ∧ ((((Builder.ofArgs SystemBuilder.declared : Builder Unit).gather "dt" ()).gather
        "method" ()).exit Builder.make_missing_message = Except.ok ()
    ∧ (((Builder.ofArgs SystemBuilder.declared : Builder Unit).gather "dt" ()).gather
        "method" ()).exit BodyBuilder.make_missing_message = Except.ok ()
    ∧ (((Builder.ofArgs SystemBuilder.declared : Builder Unit).gather "dt" ()).gather
        "method" ()).exit SystemBuilder.make_missing_message = Except.ok ()) := by
  have hne : (Builder.ofArgs BodyBuilder.declared : Builder Unit).missing_args ≠ [] := by
    decide
  have h0 : (((Builder.ofArgs SystemBuilder.declared : Builder Unit).gather "dt" ()).gather
      "method" ()).missing_args = [] := by
    decide
  exact ⟨⟨hne, (builder_exit_missing_check _).2 hne⟩,
    h0, (builder_exit_missing_check _).1 h0⟩
